import Mathlib

/-!
Shallow embedding of the upload-session and file-lifecycle subsystem of the
gemini-balance gateway (`app/service/files/files_service.py`), together with
proofs of the specified properties.

Strings are modelled as `List Char`; Python dictionaries as association lists
in insertion order; the two session tiers (in-process cache and shared store)
as explicit state; upstream HTTP interactions as explicit inputs.
-/

abbrev Str := List Char

/-- Association-list lookup, modelling Python `dict.get` /
`dict[...]` access (keys compared for equality). -/
def alookup {β : Type} (m : List (Str × β)) (k : Str) : Option β :=
  match m with
  | [] => none
  | (k', v) :: rest => if k' = k then some v else alookup rest k

/-- Association-list insert-or-replace, modelling Python `d[k] = v`
(an existing key keeps its position, a new key is appended). -/
def aupsert {β : Type} (m : List (Str × β)) (k : Str) (v : β) : List (Str × β) :=
  match m with
  | [] => [(k, v)]
  | (k', v') :: rest => if k' = k then (k', v) :: rest else (k', v') :: aupsert rest k v

/-- Python `str.strip()`: remove leading and trailing whitespace. -/
def pyStrip (s : Str) : Str :=
  ((s.dropWhile Char.isWhitespace).reverse.dropWhile Char.isWhitespace).reverse

/-- Python `str.rstrip('/')`: remove trailing slashes. -/
def rstripSlash (s : Str) : Str :=
  (s.reverse.dropWhile (fun c => c = '/')).reverse

/-- Python `str.replace(pat, repl, 1)`: replace the leftmost occurrence of
`pat` (when non-empty) by `repl`. -/
def replaceFirst (pat repl : Str) : Str → Str
  | [] => []
  | c :: rest =>
      if pat ≠ [] ∧ pat <+: (c :: rest) then repl ++ (c :: rest).drop pat.length
      else c :: replaceFirst pat repl rest

/-- Recursion kernel for `replaceAll`: the fuel argument bounds the number of
steps and is kept at least the length of the remaining string (structural recursion so
that concrete instances compute by `decide`). -/
def replaceAllAux (pat repl : Str) : Nat → Str → Str
  | _, [] => []
  | 0, s => s
  | fuel + 1, c :: rest =>
      if pat ≠ [] ∧ pat <+: (c :: rest) then
        repl ++ replaceAllAux pat repl fuel ((c :: rest).drop pat.length)
      else c :: replaceAllAux pat repl fuel rest

/-- Python `str.replace(pat, repl)`: replace every non-overlapping occurrence
of `pat` (when non-empty) by `repl`, scanning left to right. -/
def replaceAll (pat repl s : Str) : Str :=
  replaceAllAux pat repl s.length s

theorem replaceAllAux_congr (pat repl : Str) :
    ∀ (f₁ : Nat) (s : Str) (f₂ : Nat), s.length ≤ f₁ → s.length ≤ f₂ →
      replaceAllAux pat repl f₁ s = replaceAllAux pat repl f₂ s := by
  intro f₁
  induction f₁ with
  | zero =>
    intro s f₂ h₁ _
    have hs : s = [] := List.eq_nil_of_length_eq_zero (Nat.le_zero.mp h₁)
    subst hs
    cases f₂ <;> rfl
  | succ f ih =>
    intro s f₂ h₁ h₂
    match s, f₂ with
    | [], g => cases g <;> rfl
    | c :: rest, 0 => simp at h₂
    | c :: rest, g + 1 =>
      simp only [replaceAllAux]
      by_cases hc : pat ≠ [] ∧ pat <+: (c :: rest)
      · rw [if_pos hc, if_pos hc]
        have hlen : ((c :: rest).drop pat.length).length ≤ f := by
          simp only [List.length_drop, List.length_cons]
          have : 1 ≤ pat.length := List.length_pos.mpr hc.1
          simp only [List.length_cons] at h₁
          omega
        have hlen₂ : ((c :: rest).drop pat.length).length ≤ g := by
          simp only [List.length_drop, List.length_cons]
          have : 1 ≤ pat.length := List.length_pos.mpr hc.1
          simp only [List.length_cons] at h₂
          omega
        rw [ih _ _ hlen hlen₂]
      · rw [if_neg hc, if_neg hc]
        have hl₁ : rest.length ≤ f := by simp only [List.length_cons] at h₁; omega
        have hl₂ : rest.length ≤ g := by simp only [List.length_cons] at h₂; omega
        rw [ih _ _ hl₁ hl₂]

theorem replaceAll_nil (pat repl : Str) : replaceAll pat repl [] = [] := rfl

theorem replaceAll_cons_pos {pat : Str} (repl : Str) {c : Char} {rest : Str}
    (h : pat ≠ [] ∧ pat <+: (c :: rest)) :
    replaceAll pat repl (c :: rest) =
      repl ++ replaceAll pat repl ((c :: rest).drop pat.length) := by
  show replaceAllAux pat repl (rest.length + 1) (c :: rest) = _
  simp only [replaceAllAux, if_pos h]
  congr 1
  apply replaceAllAux_congr
  · simp only [List.length_drop, List.length_cons]
    have : 1 ≤ pat.length := List.length_pos.mpr h.1
    omega
  · exact Nat.le_refl _

theorem replaceAll_cons_neg {pat : Str} (repl : Str) {c : Char} {rest : Str}
    (h : ¬ (pat ≠ [] ∧ pat <+: (c :: rest))) :
    replaceAll pat repl (c :: rest) = c :: replaceAll pat repl rest := by
  show replaceAllAux pat repl (rest.length + 1) (c :: rest) = _
  simp only [replaceAllAux, if_neg h]
  rfl

example : replaceAll ("ab".toList) ("x".toList) ("zababz".toList) = "zxxz".toList := by decide
example : replaceFirst ("ab".toList) ("x".toList) ("zababz".toList) = "zxabz".toList := by decide

/-- Characters after the first occurrence of `c` (none if `c` is absent). -/
def afterFirst (c : Char) : Str → Option Str
  | [] => none
  | x :: xs => if x = c then some xs else afterFirst c xs

/-- Python `urllib.parse.urlparse(url).query`: the part after the first question
mark of the pre-fragment part of the URL (empty when there is none). -/
def urlQuery (url : Str) : Str :=
  (afterFirst '?' (url.takeWhile (fun c => c != '#'))).getD []

/-- Python `'+'`-to-space decoding applied by `parse_qsl` to names and
values. -/
def plusDecode (c : Char) : Char := if c = '+' then ' ' else c

/-- Python `urllib.parse.parse_qsl` with default arguments: split the query on
`'&'`, keep only fields that contain a `'='` and a non-empty value; the name
is the part before the first `'='`, the value the part after it. Plus signs
decode to spaces; percent-escapes, which do not occur in the URLs this
service handles, are kept as-is. -/
def qsPairs (query : Str) : List (Str × Str) :=
  (query.splitOn '&').filterMap (fun f =>
    match afterFirst '=' f with
    | none => none
    | some v =>
        if v = [] then none
        else some ((f.takeWhile (fun c => c != '=')).map plusDecode, v.map plusDecode))

/-- Python `parse_qs(query).get(name, [d])[0]`: the first value listed for `name`
in the parsed query string. -/
def firstQueryValue (query : Str) (name : Str) : Option Str :=
  ((qsPairs query).find? (fun p => decide (p.1 = name))).map (fun p => p.2)

/-- Lines 164–168 of `files_service.py`: extract `upload_id` from the
query string of the upstream upload URL. -/
def extractUploadId (url : Str) : Option Str :=
  firstQueryValue (urlQuery url) ("upload_id".toList)

/-- The fixed upstream origin replaced during URL rewriting (line 225). -/
def upstreamDomain : Str := "https://generativelanguage.googleapis.com".toList

/-- Lines 213–218: force the request host to an https origin, upgrading a
bare host or an `http://` prefix. -/
def forceHttps (h : Str) : Str :=
  if "https://".toList <+: h then h
  else if "http://".toList <+: h then replaceFirst ("http://".toList) ("https://".toList) h
  else "https://".toList ++ h

/-- Whether the regular expression `(\?|&)key=([^&]+)` matches at the head
of `s`. -/
def keyMatchHead (s : Str) : Bool :=
  match s with
  | c :: rest =>
      (c == '?' || c == '&') && ("key=".toList.isPrefixOf rest) &&
        (match rest.drop 4 with
         | [] => false
         | d :: _ => d != '&')
  | [] => false

/-- Python `re.search` of the pattern `(\?|&)key=([^&]+)` (line 233): the leftmost match,
as the separator character (group 1) and the greedy value group (group 2). -/
def findKeyMatch : Str → Option (Char × Str)
  | [] => none
  | c :: rest =>
      if keyMatchHead (c :: rest) then some (c, (rest.drop 4).takeWhile (fun d => d != '&'))
      else findKeyMatch rest

/-- Lines 229–239: replace the matched `key=<credential>` (every textual
occurrence of the matched substring, as Python `str.replace` does) by
`key=<token>`; a URL without a `key=` parameter is left as it stands. -/
def replaceKeyParam (url : Str) (token : Str) : Str :=
  match findKeyMatch url with
  | none => url
  | some (sep, cred) =>
      replaceAll (sep :: ("key=".toList ++ cred)) (sep :: ("key=".toList ++ token)) url

/-- Lines 210–241: the URL Rewriter — substitute the fixed upstream origin
by the https-forced request host (trailing slashes stripped) and swap the
value of the `key` parameter for the token of the caller. -/
def rewriteUrl (upload_url : Str) (request_host : Str) (user_token : Str) : Str :=
  replaceKeyParam (replaceAll upstreamDomain (rstripSlash (forceHttps request_host)) upload_url) user_token

/-- Lines 211–241 as used by `initialize_upload`: the URL put into the
`X-Goog-Upload-URL` response header — rewritten only when a non-empty
`request_host` was supplied. -/
def proxyUrlFor (upload_url : Str) (request_host : Option Str) (user_token : Str) : Str :=
  match request_host with
  | none => upload_url
  | some h => if h = [] then upload_url else rewriteUrl upload_url h user_token

/-- Value of a non-empty run of decimal digits. -/
def digitsToNat (ds : Str) : Option Nat :=
  if ds ≠ [] ∧ ∀ c ∈ ds, c.isDigit then
    some (ds.foldl (fun a c => a * 10 + (c.toNat - 48)) 0)
  else none

/-- Python `int(·)` on the header strings at hand: surrounding whitespace,
an optional sign, then decimal digits (underscore group separators are not
modelled). `none` models the `ValueError` raised on anything else. -/
def pyInt (s : Str) : Option Int :=
  match pyStrip s with
  | '+' :: ds => (digitsToNat ds).map (fun n => (n : Int))
  | '-' :: ds => (digitsToNat ds).map (fun n => -(n : Int))
  | ds => (digitsToNat ds).map (fun n => (n : Int))

example : extractUploadId ("https://generativelanguage.googleapis.com/upload/v1beta/files?key=K&upload_id=abc&upload_protocol=resumable".toList) = some ("abc".toList) := by decide
example : extractUploadId ("https://generativelanguage.googleapis.com/upload/v1beta/files?key=K".toList) = none := by decide
example : rewriteUrl ("https://generativelanguage.googleapis.com/upload/v1beta/files?key=SECRET&upload_id=abc".toList) ("example.com".toList) ("tok".toList)
    = "https://example.com/upload/v1beta/files?key=tok&upload_id=abc".toList := by decide
example : pyInt ("0".toList) = some 0 := by decide
example : pyInt (" -42 ".toList) = some (-42) := by decide
example : pyInt ("abc".toList) = none := by decide

/-- An in-flight upload session as stored by `initialize_upload`
(lines 176–185 and the `t_upload_sessions` row of `models.py`). Time is
modelled in integral seconds since an arbitrary epoch. -/
structure UploadSession where
  api_key : Str
  user_token : Str
  session_id : Option Str
  display_name : Str
  mime_type : Str
  size_bytes : Int
  created_at : Nat
  upload_url : Str
deriving DecidableEq

/-- The two session tiers: the per-worker in-memory cache
`_upload_sessions` and the shared database table, both keyed by
`upload_id`. -/
structure SessionState where
  mem : List (Str × UploadSession)
  db : List (Str × UploadSession)
deriving DecidableEq

/-- The sweep predicate of `_cleanup_expired_sessions` (line 261):
`now - session["created_at"] > timedelta(hours=1)`. -/
def sessionExpired (now : Nat) (s : UploadSession) : Prop :=
  s.created_at + 3600 < now

instance (now : Nat) (s : UploadSession) : Decidable (sessionExpired now s) :=
  inferInstanceAs (Decidable (_ < _))

/-- Lines 254–270: `_cleanup_expired_sessions` removes every in-memory
session past its one-hour TTL; the database tier is untouched. -/
def cleanup_expired_sessions (now : Nat) (st : SessionState) : SessionState :=
  ⟨st.mem.filter (fun p => !(decide (sessionExpired now p.2))), st.db⟩

/-- Lines 64–91: read the logical session id from the `x-session-id` (or
`X-Session-Id`) header; empty or whitespace-only values are discarded, and
the surviving value is stripped. -/
def getSessionId (headers : List (Str × Str)) : Option Str :=
  let raw :=
    match alookup headers ("x-session-id".toList) with
    | some v => if v = [] then alookup headers ("X-Session-Id".toList) else some v
    | none => alookup headers ("X-Session-Id".toList)
  match raw with
  | none => none
  | some v =>
      if v = [] then none
      else if pyStrip v = [] then none
      else some (pyStrip v)

/-- Lines 98–103: linear scan of the in-memory sessions (in insertion
order) for the first one carrying the given logical session id. -/
def findBySessionId (mem : List (Str × UploadSession)) (sid : Str) : Option UploadSession :=
  match mem with
  | [] => none
  | (_, s) :: rest => if s.session_id = some sid then some s else findBySessionId rest sid

/-- Lines 95–114: the credential chosen for the call — the credential of an
existing in-memory session with the same logical session id when there is
one, otherwise the fresh key handed out by the key manager (`none` when the
pool is exhausted, i.e. `get_next_key` returned `None`). -/
def chosen_api_key (mem : List (Str × UploadSession)) (sid : Option Str)
    (fresh_key : Option Str) : Option Str :=
  match sid with
  | some s =>
      match findBySessionId mem s with
      | some sess => some sess.api_key
      | none => fresh_key
  | none => fresh_key

/-- The environment of one `initialize_upload` call: the request, the
caller, and the behaviour of the external collaborators (key manager,
upstream init endpoint, database write) during the call. `display_name` is
the value the tolerant JSON body parse of lines 69–82 produced (empty for an
absent or malformed body). -/
structure InitEnv where
  headers : List (Str × Str)
  display_name : Str
  user_token : Str
  request_host : Option Str
  fresh_key : Option Str
  upstream_status : Nat
  upstream_upload_url : Option Str
  db_write_ok : Bool
  now : Nat

/-- The two response headers returned on success (lines 243–246). -/
structure InitResponseHeaders where
  upload_url : Str
  upload_status : Str
deriving DecidableEq

/-- Lines 45–252: `initialize_upload`. Failures are the raised
`HTTPException` status codes: 503 when no usable credential is available,
the upstream status verbatim on a non-200 upstream response, 500 when the
200 response lacks the `x-goog-upload-url` header, and 500 (the generic
internal-error translation of line 252) when the declared content length
fails integer conversion on the session-recording path (line 172). On
success the session is recorded in the memory tier and, when the database
write succeeds, in the database tier — but only when the upstream URL
carried an `upload_id`. -/
def initialize_upload (st : SessionState) (env : InitEnv) :
    Except Nat InitResponseHeaders × SessionState :=
  let sid := getSessionId env.headers
  match chosen_api_key st.mem sid env.fresh_key with
  | none => (.error 503, st)
  | some k =>
    if k = [] then (.error 503, st)
    else if env.upstream_status ≠ 200 then (.error env.upstream_status, st)
    else
      match env.upstream_upload_url with
      | none => (.error 500, st)
      | some upload_url =>
        let respHeaders : InitResponseHeaders :=
          ⟨proxyUrlFor upload_url env.request_host env.user_token, "active".toList⟩
        match extractUploadId upload_url with
        | none => (.ok respHeaders, st)
        | some uid =>
          let mime := (alookup env.headers ("x-goog-upload-header-content-type".toList)).getD
            ("application/octet-stream".toList)
          match pyInt ((alookup env.headers ("x-goog-upload-header-content-length".toList)).getD
              ("0".toList)) with
          | none => (.error 500, st)
          | some sz =>
            let sess : UploadSession :=
              { api_key := k, user_token := env.user_token, session_id := sid,
                display_name := env.display_name, mime_type := mime, size_bytes := sz,
                created_at := env.now, upload_url := upload_url }
            (.ok respHeaders,
              ⟨aupsert st.mem uid sess,
               if env.db_write_ok then aupsert st.db uid sess else st.db⟩)

/-- Lines 279–285: a lookup key that is a full URL normalizes to the
`upload_id` in its query string, defaulting to the key itself when the URL
has none; a bare key is used as-is. -/
def normalizeSessionKey (key : Str) : Str :=
  if "http".toList <+: key then (firstQueryValue (urlQuery key) ("upload_id".toList)).getD key
  else key

/-- Lines 272–314: `get_upload_session` — the in-memory tier is consulted
first, then the database tier; no time-to-live check is performed on
either hit. -/
def get_upload_session (st : SessionState) (key : Str) : Option UploadSession :=
  let uid := normalizeSessionKey key
  match alookup st.mem uid with
  | some s => some s
  | none => alookup st.db uid

/-- The `FileState` enumeration of `models.py`. -/
inductive FileState where
  | PROCESSING
  | ACTIVE
  | FAILED
deriving DecidableEq

/-- Model of `FileState.value`: the string stored in / compared against the upstream
`state` field. -/
def FileState.value : FileState → Str
  | .PROCESSING => "PROCESSING".toList
  | .ACTIVE => "ACTIVE".toList
  | .FAILED => "FAILED".toList

/-- The durable `t_file_records` row, restricted to the columns the
file-lifecycle operations consult (`state` is non-nullable in the schema). -/
structure FileRecord where
  name : Str
  state : FileState
  expiration_time : Nat
  api_key : Str
  user_token : Option Str
deriving DecidableEq

/-- Modelled from the spec: `app.database.services.get_file_record_by_name`
is not among the provided sources; per the FileRecord store contract (§6,
keyed CRUD on the unique `name`), it returns the record with the given
name, if any. -/
def get_file_record_by_name (store : List FileRecord) (file_name : Str) : Option FileRecord :=
  match store with
  | [] => none
  | r :: rest => if r.name = file_name then some r else get_file_record_by_name rest file_name

/-- Modelled from the spec: `app.database.services.update_file_record_state`
is not among the provided sources; per the FileRecord store contract (§6),
it sets the `state` of the record with the given name. -/
def update_file_record_state (store : List FileRecord) (file_name : Str)
    (st : FileState) : List FileRecord :=
  store.map (fun r => if r.name = file_name then { r with state := st } else r)

/-- Modelled from the spec: `app.database.services.delete_file_record` is
not among the provided sources; per the FileRecord store contract (§6), it
removes the record with the given name. -/
def delete_file_record (store : List FileRecord) (file_name : Str) : List FileRecord :=
  store.filter (fun r => !(decide (r.name = file_name)))

/-- Lines 316–393: `get_file`. The upstream metadata call is modelled by
its observed status and reported `state` field (`none` when the 200 body
has no `state`, in which case line 358 defaults it to `PROCESSING`). The
result is the `state` carried by the returned `FileMetadata` — the
remaining metadata fields are copied verbatim from the upstream body —
paired with the store as left after the reconciliation writes of
lines 357–373. Failures are the raised status codes: 404 for a missing or
expired record, the upstream status verbatim otherwise. -/
def get_file (store : List FileRecord) (file_name : Str) (now : Nat)
    (upstream_status : Nat) (upstream_state : Option Str) :
    Except Nat Str × List FileRecord :=
  match get_file_record_by_name store file_name with
  | none => (.error 404, store)
  | some r =>
    if r.expiration_time ≤ now then (.error 404, store)
    else if upstream_status ≠ 200 then (.error upstream_status, store)
    else
      let google_state := upstream_state.getD ("PROCESSING".toList)
      let store' :=
        if google_state ≠ r.state.value then
          if google_state = "ACTIVE".toList then
            update_file_record_state store file_name .ACTIVE
          else if google_state = "FAILED".toList then
            update_file_record_state store file_name .FAILED
          else store
        else store
      (.ok google_state, store')

/-- Modelled from the spec: `app.database.services.list_file_records` is not
among the provided sources; per the FileRecord store contract (§6: a scan
filterable by expiration and ownership, paginated by an opaque continuation
token) and the record invariant (§3: a record whose `expirationTime` has
passed is considered deleted even if not yet swept), it returns one page of
the unexpired records owned by the given caller (all unexpired records when
no caller token is supplied), the continuation token being the offset of the
next page. -/
def list_file_records (store : List FileRecord) (now : Nat) (user_token : Option Str)
    (page_size : Nat) (page_offset : Nat) : List FileRecord × Option Nat :=
  let eligible := store.filter (fun r =>
    decide (now < r.expiration_time) &&
      (match user_token with
       | some t => decide (r.user_token = some t)
       | none => true))
  let page := (eligible.drop page_offset).take page_size
  (page, if page_offset + page_size < eligible.length then some (page_offset + page_size) else none)

/-- Lines 395–451: `list_files` — a pure read that converts each record of
the store page into response metadata; the records backing the returned
page are what the claims quantify over, so the page itself is returned. -/
def list_files (store : List FileRecord) (now : Nat) (page_size : Nat)
    (page_offset : Nat) (user_token : Option Str) : List FileRecord × Option Nat :=
  list_file_records store now user_token page_size page_offset

/-- Lines 453–499: `delete_file`. The upstream delete is modelled by its
observed status. Success returns `true` together with the store as left by
the call; failures are the raised status codes (404 for a missing record,
the upstream status verbatim when the delete failed on an unexpired
record). -/
def delete_file (store : List FileRecord) (file_name : Str) (now : Nat)
    (upstream_status : Nat) : Except Nat Bool × List FileRecord :=
  match get_file_record_by_name store file_name with
  | none => (.error 404, store)
  | some r =>
    if upstream_status = 200 ∨ upstream_status = 204 then
      (.ok true, delete_file_record store file_name)
    else if r.expiration_time ≤ now then
      (.ok true, delete_file_record store file_name)
    else (.error upstream_status, store)

/-- Credential affinity on the in-memory tier: any two cached sessions
carrying the same present logical session id store the same credential. -/
def memAffinity (mem : List (Str × UploadSession)) : Prop :=
  ∀ p ∈ mem, ∀ q ∈ mem, p.2.session_id ≠ none → p.2.session_id = q.2.session_id →
    p.2.api_key = q.2.api_key

/-- Tier coherence of a single worker: every not-yet-expired database
session is still present in the in-memory tier (each recorded session is
written to memory first, and the sweep removes only expired entries). -/
def dbCovered (now : Nat) (st : SessionState) : Prop :=
  ∀ e ∈ st.db, ¬ sessionExpired now e.2 → e ∈ st.mem

/-- The inductive invariant carried across `initialize_upload` calls. -/
def affinityInv (now : Nat) (st : SessionState) : Prop :=
  memAffinity st.mem ∧ dbCovered now st

/-- The claim-level affinity statement: across both tiers, any two in-flight
(unexpired) sessions sharing a present logical session id carry the same
credential. -/
def credentialAffinity (now : Nat) (st : SessionState) : Prop :=
  ∀ p ∈ st.mem ++ st.db, ∀ q ∈ st.mem ++ st.db,
    ¬ sessionExpired now p.2 → ¬ sessionExpired now q.2 →
    p.2.session_id ≠ none → p.2.session_id = q.2.session_id →
    p.2.api_key = q.2.api_key

instance decMemAffinity (mem : List (Str × UploadSession)) : Decidable (memAffinity mem) := by
  unfold memAffinity
  infer_instance

instance decDbCovered (now : Nat) (st : SessionState) : Decidable (dbCovered now st) := by
  unfold dbCovered
  infer_instance

instance decAffinityInv (now : Nat) (st : SessionState) : Decidable (affinityInv now st) := by
  unfold affinityInv
  infer_instance

theorem credentialAffinity_of_affinityInv {now : Nat} {st : SessionState}
    (h : affinityInv now st) : credentialAffinity now st := by
  rcases h with ⟨hm, hc⟩
  intro p hp q hq hpu _ hsid heq
  have hp' : p ∈ st.mem := by
    rcases List.mem_append.mp hp with h' | h'
    · exact h'
    · exact hc p h' hpu
  have hq' : q ∈ st.mem := by
    rcases List.mem_append.mp hq with h' | h'
    · exact h'
    · exact hc q h' ‹¬ sessionExpired now q.2›
  exact hm p hp' q hq' hsid heq

theorem findBySessionId_some {mem : List (Str × UploadSession)} {s : Str} {q : UploadSession}
    (h : findBySessionId mem s = some q) :
    (∃ u, (u, q) ∈ mem) ∧ q.session_id = some s := by
  induction mem with
  | nil => simp [findBySessionId] at h
  | cons e rest ih =>
    obtain ⟨u, v⟩ := e
    by_cases hv : v.session_id = some s
    · simp only [findBySessionId, if_pos hv] at h
      cases h
      exact ⟨⟨u, List.mem_cons_self _ _⟩, hv⟩
    · simp only [findBySessionId, if_neg hv] at h
      obtain ⟨⟨u', hu'⟩, hsid⟩ := ih h
      exact ⟨⟨u', List.mem_cons_of_mem _ hu'⟩, hsid⟩

theorem findBySessionId_none {mem : List (Str × UploadSession)} {s : Str}
    (h : findBySessionId mem s = none) :
    ∀ e ∈ mem, e.2.session_id ≠ some s := by
  induction mem with
  | nil => intro e he; simp at he
  | cons p rest ih =>
    obtain ⟨u, v⟩ := p
    by_cases hv : v.session_id = some s
    · simp [findBySessionId, if_pos hv] at h
    · simp only [findBySessionId, if_neg hv] at h
      intro e he
      rcases List.mem_cons.mp he with h' | h'
      · subst h'; exact hv
      · exact ih h e h'

theorem aupsert_of_fresh {β : Type} {m : List (Str × β)} {k : Str} (v : β)
    (h : alookup m k = none) : aupsert m k v = m ++ [(k, v)] := by
  induction m with
  | nil => rfl
  | cons e rest ih =>
    obtain ⟨k', v'⟩ := e
    by_cases hk : k' = k
    · simp [alookup, if_pos hk] at h
    · simp only [alookup, if_neg hk] at h
      simp [aupsert, if_neg hk, ih h]

theorem alookup_aupsert {β : Type} (m : List (Str × β)) (k : Str) (v : β) :
    alookup (aupsert m k v) k = some v := by
  induction m with
  | nil => simp [aupsert, alookup]
  | cons e rest ih =>
    obtain ⟨k', v'⟩ := e
    by_cases hk : k' = k
    · simp [aupsert, if_pos hk, alookup]
    · simp [aupsert, if_neg hk, alookup, ih]

/-- The value of `chosen_api_key` agrees with every cached session that carries the
requested logical session id. -/
theorem chosen_api_key_agrees {mem : List (Str × UploadSession)} {sid : Option Str}
    {fk : Option Str} {k : Str}
    (hm : memAffinity mem)
    (hck : chosen_api_key mem sid fk = some k) :
    ∀ e ∈ mem, sid ≠ none → e.2.session_id = sid → e.2.api_key = k := by
  intro e he hne hsid
  match sid with
  | none => exact absurd rfl hne
  | some s =>
    simp only [chosen_api_key] at hck
    cases hq : findBySessionId mem s with
    | some q =>
      rw [hq] at hck
      cases hck
      obtain ⟨⟨u, hu⟩, hqs⟩ := findBySessionId_some hq
      exact hm e he (u, q) hu (by rw [hsid]; simp) (by rw [hsid, hqs])
    | none =>
      exact absurd hsid (findBySessionId_none hq e he)

/-- Recording a fresh session (its credential chosen per the affinity
policy) preserves the invariant. -/
theorem affinityInv_record {now : Nat} {st : SessionState} {uid : Str}
    {sess : UploadSession} (ok : Bool)
    (hInv : affinityInv now st)
    (hmemF : alookup st.mem uid = none) (hdbF : alookup st.db uid = none)
    (hkey : ∀ e ∈ st.mem, sess.session_id ≠ none → e.2.session_id = sess.session_id →
      e.2.api_key = sess.api_key) :
    affinityInv now
      ⟨aupsert st.mem uid sess, if ok then aupsert st.db uid sess else st.db⟩ := by
  rcases hInv with ⟨hm, hc⟩
  rw [aupsert_of_fresh sess hmemF]
  constructor
  · intro p hp q hq hpn hpq
    rcases List.mem_append.mp hp with hp' | hp' <;>
      rcases List.mem_append.mp hq with hq' | hq'
    · exact hm p hp' q hq' hpn hpq
    · have hq2 : q = (uid, sess) := List.mem_singleton.mp hq'
      subst hq2
      exact hkey p hp' (by rw [← hpq]; exact hpn) hpq
    · have hp2 : p = (uid, sess) := List.mem_singleton.mp hp'
      subst hp2
      exact (hkey q hq' hpn (Eq.symm hpq)).symm
    · have hp2 : p = (uid, sess) := List.mem_singleton.mp hp'
      have hq2 : q = (uid, sess) := List.mem_singleton.mp hq'
      rw [hp2, hq2]
  · cases ok with
    | false =>
      simp only [if_neg (Bool.false_ne_true)]
      intro e he hu
      exact List.mem_append_left _ (hc e he hu)
    | true =>
      simp only [if_pos rfl]
      rw [aupsert_of_fresh sess hdbF]
      intro e he hu
      rcases List.mem_append.mp he with he' | he'
      · exact List.mem_append_left _ (hc e he' hu)
      · exact List.mem_append_right _ he'

/-- The opportunistic sweep preserves the invariant: it removes only
expired in-memory entries and leaves the database tier alone. -/
theorem affinityInv_cleanup {now : Nat} {st : SessionState}
    (hInv : affinityInv now st) :
    affinityInv now (cleanup_expired_sessions now st) := by
  rcases hInv with ⟨hm, hc⟩
  constructor
  · intro p hp q hq hpn hpq
    exact hm p (List.mem_of_mem_filter hp) q (List.mem_of_mem_filter hq) hpn hpq
  · intro e he hu
    refine List.mem_filter.mpr ⟨hc e he hu, ?_⟩
    simp [hu]

/-- C1: credential affinity. Provided the invariant held before the call
and the upstream-issued `upload_id` is globally fresh, it still holds after
`initialize_upload` — so any two recorded in-flight sessions sharing a
non-empty logical session id store the same credential — and a call whose
logical session id matches an in-flight cached session reuses that
credential of that session instead of consuming a fresh one. -/
theorem initialize_upload_credential_affinity (st : SessionState) (env : InitEnv)
    (hInv : affinityInv env.now st)
    (hFresh : ∀ u uid, env.upstream_upload_url = some u → extractUploadId u = some uid →
      alookup st.mem uid = none ∧ alookup st.db uid = none) :
    affinityInv env.now (initialize_upload st env).2 ∧
    credentialAffinity env.now (initialize_upload st env).2 ∧
    (∀ s q, getSessionId env.headers = some s → findBySessionId st.mem s = some q →
      chosen_api_key st.mem (getSessionId env.headers) env.fresh_key = some q.api_key) := by
  have hpres : affinityInv env.now (initialize_upload st env).2 := by
    simp only [initialize_upload]
    split
    · exact hInv
    next k hck =>
      split
      · exact hInv
      split
      · exact hInv
      split
      · exact hInv
      next u hu =>
        split
        · exact hInv
        next uid huid =>
          split
          · exact hInv
          next sz hsz =>
            obtain ⟨hmf, hdf⟩ := hFresh u uid hu huid
            exact affinityInv_record _ hInv hmf hdf
              (chosen_api_key_agrees hInv.1 hck)
  refine ⟨hpres, credentialAffinity_of_affinityInv hpres, ?_⟩
  intro s q hs hq
  rw [hs]
  simp [chosen_api_key, hq]

/-- C2 counterexample state: a single cached session created at second 0. -/
def staleSession : UploadSession :=
  { api_key := "K1".toList, user_token := "t".toList, session_id := none,
    display_name := [], mime_type := [], size_bytes := 0, created_at := 0,
    upload_url := [] }

/-- C2 counterexample state wrapper. -/
def staleState : SessionState := ⟨[("u1".toList, staleSession)], []⟩

/-- C2 counterexample: 3660 seconds (61 minutes) after its creation the
session has passed its one-hour TTL, yet `get_upload_session` still returns
it from the Local Session Cache — the lookup performs no TTL check, so an
expired entry is not treated as absent, contrary to the claim. -/
theorem get_upload_session_ttl_counterexample :
    sessionExpired 3660 staleSession ∧
    get_upload_session staleState ("u1".toList) = some staleSession := by
  exact ⟨by decide, by decide⟩

/-- C2 amended: `get_upload_session` returns not-found exactly when the
normalized key is absent from both the local cache and the session store;
no TTL check is performed at lookup time, so an expired but unswept entry
in either tier is still returned. -/
theorem get_upload_session_not_found_iff (st : SessionState) (key : Str) :
    get_upload_session st key = none ↔
      (alookup st.mem (normalizeSessionKey key) = none ∧
       alookup st.db (normalizeSessionKey key) = none) := by
  simp only [get_upload_session]
  cases hm : alookup st.mem (normalizeSessionKey key) with
  | some s => simp
  | none => simp

theorem get_record_update (store : List FileRecord) (n : Str) (st : FileState) :
    get_file_record_by_name (update_file_record_state store n st) n =
      (get_file_record_by_name store n).map (fun r => { r with state := st }) := by
  induction store with
  | nil => rfl
  | cons r rest ih =>
    simp only [update_file_record_state, List.map] at ih ⊢
    by_cases hn : r.name = n
    · simp [get_file_record_by_name, hn]
    · simp [get_file_record_by_name, hn, ih]

theorem get_file_eq_of_ok (store : List FileRecord) (r : FileRecord)
    (file_name : Str) (now : Nat) (ustate : Option Str)
    (hr : get_file_record_by_name store file_name = some r)
    (hexp : now < r.expiration_time) :
    get_file store file_name now 200 ustate =
      (.ok (ustate.getD ("PROCESSING".toList)),
       if ustate.getD ("PROCESSING".toList) ≠ r.state.value then
         if ustate.getD ("PROCESSING".toList) = "ACTIVE".toList then
           update_file_record_state store file_name .ACTIVE
         else if ustate.getD ("PROCESSING".toList) = "FAILED".toList then
           update_file_record_state store file_name .FAILED
         else store
       else store) := by
  have hne : ¬ r.expiration_time ≤ now := by omega
  simp [get_file, hr, hne]

/-- C5: reconciliation in `get_file`. For a stored, unexpired record and a
200 upstream response, the returned metadata carries the freshly observed
upstream state; when that state differs from the stored one, the store
transitions to ACTIVE or FAILED to match it; and a reconciliation write
never sets PROCESSING once the record has left it. -/
theorem get_file_reconciliation (store : List FileRecord) (r : FileRecord)
    (file_name : Str) (now : Nat) (ustate : Option Str)
    (hr : get_file_record_by_name store file_name = some r)
    (hexp : now < r.expiration_time) :
    (get_file store file_name now 200 ustate).1 = .ok (ustate.getD ("PROCESSING".toList)) ∧
    ((get_file store file_name now 200 ustate).2 = store ∨
     (get_file store file_name now 200 ustate).2 =
       update_file_record_state store file_name .ACTIVE ∨
     (get_file store file_name now 200 ustate).2 =
       update_file_record_state store file_name .FAILED) ∧
    (ustate.getD ("PROCESSING".toList) = "ACTIVE".toList →
      ustate.getD ("PROCESSING".toList) ≠ r.state.value →
      get_file_record_by_name (get_file store file_name now 200 ustate).2 file_name =
        some { r with state := .ACTIVE }) ∧
    (ustate.getD ("PROCESSING".toList) = "FAILED".toList →
      ustate.getD ("PROCESSING".toList) ≠ r.state.value →
      get_file_record_by_name (get_file store file_name now 200 ustate).2 file_name =
        some { r with state := .FAILED }) ∧
    (∀ r', get_file_record_by_name (get_file store file_name now 200 ustate).2 file_name =
        some r' → r'.state = .PROCESSING → r.state = .PROCESSING) := by
  rw [get_file_eq_of_ok store r file_name now ustate hr hexp]
  refine ⟨rfl, ?_, ?_, ?_, ?_⟩
  · by_cases hdiff : ustate.getD ("PROCESSING".toList) ≠ r.state.value
    · rw [if_pos hdiff]
      by_cases hA : ustate.getD ("PROCESSING".toList) = "ACTIVE".toList
      · rw [if_pos hA]; exact Or.inr (Or.inl rfl)
      · rw [if_neg hA]
        by_cases hF : ustate.getD ("PROCESSING".toList) = "FAILED".toList
        · rw [if_pos hF]; exact Or.inr (Or.inr rfl)
        · rw [if_neg hF]; exact Or.inl rfl
    · rw [if_neg hdiff]; exact Or.inl rfl
  · intro hA hdiff
    rw [if_pos hdiff, if_pos hA, get_record_update, hr]
    rfl
  · intro hF hdiff
    have hA : ustate.getD ("PROCESSING".toList) ≠ "ACTIVE".toList := by
      rw [hF]; decide
    rw [if_pos hdiff, if_neg hA, if_pos hF, get_record_update, hr]
    rfl
  · intro r' hr' hst'
    by_cases hdiff : ustate.getD ("PROCESSING".toList) ≠ r.state.value
    · rw [if_pos hdiff] at hr'
      by_cases hA : ustate.getD ("PROCESSING".toList) = "ACTIVE".toList
      · rw [if_pos hA, get_record_update, hr] at hr'
        cases hr'
        simp at hst'
      · rw [if_neg hA] at hr'
        by_cases hF : ustate.getD ("PROCESSING".toList) = "FAILED".toList
        · rw [if_pos hF, get_record_update, hr] at hr'
          cases hr'
          simp at hst'
        · rw [if_neg hF, hr] at hr'
          cases hr'
          exact hst'
    · rw [if_neg hdiff, hr] at hr'
      cases hr'
      exact hst'

/-- C6: `delete_file` deletes upstream first, the local record second. A 200
or 204 upstream delete removes the local record and reports success; a
failed upstream delete on an already-expired record still removes the local
record and reports success; a failed upstream delete on an unexpired record
surfaces the upstream status and leaves the store unchanged. -/
theorem delete_file_cases (store : List FileRecord) (r : FileRecord) (file_name : Str)
    (now : Nat) (ustatus : Nat)
    (hr : get_file_record_by_name store file_name = some r) :
    ((ustatus = 200 ∨ ustatus = 204) →
      delete_file store file_name now ustatus =
        (.ok true, delete_file_record store file_name)) ∧
    (¬ (ustatus = 200 ∨ ustatus = 204) → r.expiration_time ≤ now →
      delete_file store file_name now ustatus =
        (.ok true, delete_file_record store file_name)) ∧
    (¬ (ustatus = 200 ∨ ustatus = 204) → now < r.expiration_time →
      delete_file store file_name now ustatus = (.error ustatus, store)) := by
  refine ⟨?_, ?_, ?_⟩
  · intro h
    simp only [delete_file, hr]
    rw [if_pos h]
  · intro h hexp
    simp only [delete_file, hr]
    rw [if_neg h, if_pos hexp]
  · intro h hexp
    simp only [delete_file, hr]
    rw [if_neg h, if_neg (by omega)]

/-- An already-expired ACTIVE record used by the C6 witness. -/
def expiredRecord : FileRecord :=
  { name := "files/f2".toList, state := .ACTIVE, expiration_time := 50,
    api_key := "K1".toList, user_token := some ("t".toList) }

/-- C6 witness: upstream answers 404 for a record 10 seconds past its
expiration — the call succeeds and the local record is removed. -/
theorem delete_file_cases_witness :
    delete_file [expiredRecord] ("files/f2".toList) 60 404 =
      (.ok true, delete_file_record [expiredRecord] ("files/f2".toList)) :=
  (delete_file_cases [expiredRecord] expiredRecord ("files/f2".toList) 60 404
    (by decide)).2.1 (by decide) (by decide)

/-- C7: an expired FileRecord is unreachable through the read interface even
before it is swept: `get_file` fails with 404 whatever the upstream would
answer, and no `list_files` page contains the record. -/
theorem expired_record_unreachable (store : List FileRecord) (r : FileRecord)
    (file_name : Str) (now : Nat)
    (hr : get_file_record_by_name store file_name = some r)
    (hexp : r.expiration_time ≤ now) :
    (∀ ustatus ustate, get_file store file_name now ustatus ustate = (.error 404, store)) ∧
    (∀ page_size page_offset user_token,
      r ∉ (list_files store now page_size page_offset user_token).1) := by
  constructor
  · intro ustatus ustate
    simp only [get_file, hr]
    rw [if_pos hexp]
  · intro ps po ut hmem
    simp only [list_files, list_file_records] at hmem
    have h1 : r ∈ store.filter (fun r =>
        decide (now < r.expiration_time) &&
          (match ut with
           | some t => decide (r.user_token = some t)
           | none => true)) :=
      (List.drop_subset _ _) ((List.take_subset _ _) hmem)
    have h2 := (List.mem_filter.mp h1).2
    have h3 : now < r.expiration_time := by
      have := (Bool.and_eq_true _ _).mp h2
      exact of_decide_eq_true this.1
    omega

/-- A PROCESSING record used by the C7 witness, expired at lookup time. -/
def expiredRecordB : FileRecord :=
  { name := "files/f3".toList, state := .PROCESSING, expiration_time := 30,
    api_key := "K2".toList, user_token := some ("t".toList) }

/-- C7 witness: the expired record is invisible to `get_file` (404 even on
a healthy upstream) and to the first `list_files` page. -/
theorem expired_record_unreachable_witness :
    get_file [expiredRecordB] ("files/f3".toList) 31 200 (some ("ACTIVE".toList)) =
      (.error 404, [expiredRecordB]) ∧
    expiredRecordB ∉ (list_files [expiredRecordB] 31 10 0 none).1 := by
  have h := expired_record_unreachable [expiredRecordB] expiredRecordB ("files/f3".toList) 31
    (by decide) (by decide)
  exact ⟨h.1 200 (some ("ACTIVE".toList)), h.2 10 0 none⟩

/-- The record stored as PROCESSING used by the C5 witness. -/
def processingRecord : FileRecord :=
  { name := "files/f1".toList, state := .PROCESSING, expiration_time := 100,
    api_key := "K1".toList, user_token := some ("t".toList) }

/-- C5 witness: a record stored as PROCESSING whose upstream state is now
ACTIVE is updated to ACTIVE in the store, and ACTIVE is returned. -/
theorem get_file_reconciliation_witness :
    (get_file [processingRecord] ("files/f1".toList) 10 200 (some ("ACTIVE".toList))).1 =
      .ok ("ACTIVE".toList) ∧
    get_file_record_by_name
        (get_file [processingRecord] ("files/f1".toList) 10 200 (some ("ACTIVE".toList))).2
        ("files/f1".toList) = some { processingRecord with state := .ACTIVE } := by
  have h := get_file_reconciliation [processingRecord] processingRecord ("files/f1".toList) 10
    (some ("ACTIVE".toList)) (by decide) (by decide)
  exact ⟨h.1, h.2.2.1 (by decide) (by decide)⟩

/-- C8: failure modes of the init handshake. Once a usable credential was
chosen, a non-200 upstream response makes `initialize_upload` fail with the
upstream status code verbatim, and a 200 response without the
`x-goog-upload-url` header makes it fail with an internal error (500); in
both cases neither session tier is touched. -/
theorem initialize_upload_upstream_failures (st : SessionState) (env : InitEnv) (k : Str)
    (hk : chosen_api_key st.mem (getSessionId env.headers) env.fresh_key = some k)
    (hk0 : k ≠ []) :
    (env.upstream_status ≠ 200 →
      initialize_upload st env = (.error env.upstream_status, st)) ∧
    (env.upstream_status = 200 → env.upstream_upload_url = none →
      initialize_upload st env = (.error 500, st)) := by
  constructor
  · intro hs
    simp only [initialize_upload, hk]
    rw [if_neg hk0, if_pos hs]
  · intro hs hu
    simp only [initialize_upload, hk, hu]
    rw [if_neg hk0, if_neg (by simp [hs])]

/-- C9: when the upload URL of the upstream 200 response carries no `upload_id`
query parameter, the handshake still succeeds — the caller receives the
rewritten URL and the "active" status header — but no session is recorded
in either tier. -/
theorem initialize_upload_no_upload_id (st : SessionState) (env : InitEnv) (k u : Str)
    (hk : chosen_api_key st.mem (getSessionId env.headers) env.fresh_key = some k)
    (hk0 : k ≠ []) (hs : env.upstream_status = 200)
    (hu : env.upstream_upload_url = some u) (hid : extractUploadId u = none) :
    initialize_upload st env =
      (.ok ⟨proxyUrlFor u env.request_host env.user_token, "active".toList⟩, st) := by
  simp only [initialize_upload, hk, hu, hid]
  rw [if_neg hk0, if_neg (by simp [hs])]

/-- C10: on the session-recording path (upstream 200 with an `upload_id` in
the URL) the declared content length is converted with an unguarded `int()`:
a present but non-numeric header aborts the whole call with the generic
internal error 500 — leaving both tiers untouched and never handing the
client the upload URL — while an absent header defaults to size 0 and the
call succeeds. -/
theorem initialize_upload_content_length (st : SessionState) (env : InitEnv) (k u uid : Str)
    (hk : chosen_api_key st.mem (getSessionId env.headers) env.fresh_key = some k)
    (hk0 : k ≠ []) (hs : env.upstream_status = 200)
    (hu : env.upstream_upload_url = some u) (hid : extractUploadId u = some uid) :
    (∀ v, alookup env.headers ("x-goog-upload-header-content-length".toList) = some v →
      pyInt v = none → initialize_upload st env = (.error 500, st)) ∧
    (alookup env.headers ("x-goog-upload-header-content-length".toList) = none →
      (initialize_upload st env).1 =
        .ok ⟨proxyUrlFor u env.request_host env.user_token, "active".toList⟩ ∧
      ∃ sess, alookup (initialize_upload st env).2.mem uid = some sess ∧
        sess.size_bytes = 0) := by
  constructor
  · intro v hv hpv
    simp only [initialize_upload, hk, hu, hid, hv, Option.getD_some, hpv]
    rw [if_neg hk0, if_neg (by simp [hs])]
  · intro hv
    have h0 : pyInt ("0".toList) = some 0 := by decide
    simp only [initialize_upload, hk, hu, hid, hv, Option.getD_none, h0]
    rw [if_neg hk0, if_neg (by simp [hs])]
    exact ⟨rfl, _, alookup_aupsert _ _ _, rfl⟩

/-- An in-flight session with logical session id "abc", used by the C1
witness. -/
def affinitySession : UploadSession :=
  { api_key := "K1".toList, user_token := "t".toList, session_id := some ("abc".toList),
    display_name := [], mime_type := [], size_bytes := 0, created_at := 5,
    upload_url := [] }

/-- The C1 witness state: the session is recorded in both tiers. -/
def affinityState : SessionState :=
  ⟨[("u1".toList, affinitySession)], [("u1".toList, affinitySession)]⟩

/-- The C1 witness call: same logical session id "abc", a different fresh
key on offer, upstream issuing `upload_id=u2`. -/
def affinityEnv : InitEnv :=
  { headers := [("x-session-id".toList, "abc".toList)], display_name := [],
    user_token := "t".toList, request_host := none, fresh_key := some ("K2".toList),
    upstream_status := 200,
    upstream_upload_url :=
      some ("https://generativelanguage.googleapis.com/upload/v1beta/files?key=K1&upload_id=u2".toList),
    db_write_ok := true, now := 10 }

/-- C1 witness: the affinity invariant is preserved through a concrete
second upload on logical session "abc", and the cached credential is the
one reused. -/
theorem initialize_upload_credential_affinity_witness :
    affinityInv affinityEnv.now (initialize_upload affinityState affinityEnv).2 ∧
    credentialAffinity affinityEnv.now (initialize_upload affinityState affinityEnv).2 ∧
    (∀ s q, getSessionId affinityEnv.headers = some s →
      findBySessionId affinityState.mem s = some q →
      chosen_api_key affinityState.mem (getSessionId affinityEnv.headers)
        affinityEnv.fresh_key = some q.api_key) :=
  initialize_upload_credential_affinity affinityState affinityEnv (by decide)
    (by
      intro u uid hu huid
      rw [show affinityEnv.upstream_upload_url =
          some ("https://generativelanguage.googleapis.com/upload/v1beta/files?key=K1&upload_id=u2".toList)
        from rfl] at hu
      injection hu with h1
      subst h1
      rw [show extractUploadId
          ("https://generativelanguage.googleapis.com/upload/v1beta/files?key=K1&upload_id=u2".toList) =
          some ("u2".toList) from by decide] at huid
      injection huid with h2
      subst h2
      exact ⟨by decide, by decide⟩)

/-- The C8 witness call: upstream answers 502 (and, for the second failure
mode, a separate call observes a 200 without the upload-URL header). -/
def failEnv : InitEnv :=
  { headers := [], display_name := [], user_token := "t".toList, request_host := none,
    fresh_key := some ("K".toList), upstream_status := 502, upstream_upload_url := none,
    db_write_ok := true, now := 0 }

/-- C8 witness: on empty tiers, a 502 upstream init response surfaces as a
502 failure with the state untouched. -/
theorem initialize_upload_upstream_failures_witness :
    initialize_upload ⟨[], []⟩ failEnv = (.error 502, ⟨[], []⟩) :=
  (initialize_upload_upstream_failures ⟨[], []⟩ failEnv ("K".toList) (by decide)
    (by decide)).1 (by decide)

/-- The C9 witness call: a 200 upstream response whose upload URL has no
`upload_id` query parameter. -/
def noIdEnv : InitEnv :=
  { headers := [], display_name := [], user_token := "tok".toList,
    request_host := some ("proxy.example.com".toList),
    fresh_key := some ("K".toList), upstream_status := 200,
    upstream_upload_url :=
      some ("https://generativelanguage.googleapis.com/upload/v1beta/files?key=K".toList),
    db_write_ok := true, now := 0 }

/-- C9 witness: the handshake succeeds with the rewritten URL and "active"
status, and both (empty) tiers stay empty. -/
theorem initialize_upload_no_upload_id_witness :
    initialize_upload ⟨[], []⟩ noIdEnv =
      (.ok ⟨proxyUrlFor
          ("https://generativelanguage.googleapis.com/upload/v1beta/files?key=K".toList)
          noIdEnv.request_host noIdEnv.user_token, "active".toList⟩, ⟨[], []⟩) :=
  initialize_upload_no_upload_id ⟨[], []⟩ noIdEnv ("K".toList)
    ("https://generativelanguage.googleapis.com/upload/v1beta/files?key=K".toList)
    (by decide) (by decide) rfl rfl (by decide)

/-- The C10 witness call: a 200 upstream response with `upload_id=u9` and a
non-numeric declared content length. -/
def badLenEnv : InitEnv :=
  { headers := [("x-goog-upload-header-content-length".toList, "abc".toList)],
    display_name := [], user_token := "tok".toList, request_host := none,
    fresh_key := some ("K".toList), upstream_status := 200,
    upstream_upload_url :=
      some ("https://generativelanguage.googleapis.com/upload/v1beta/files?key=K&upload_id=u9".toList),
    db_write_ok := true, now := 0 }

/-- C10 witness: with content length "abc" the whole call collapses to the
generic 500 even though the upstream handshake succeeded, and no session is
recorded. -/
theorem initialize_upload_content_length_witness :
    initialize_upload ⟨[], []⟩ badLenEnv = (.error 500, ⟨[], []⟩) :=
  (initialize_upload_content_length ⟨[], []⟩ badLenEnv ("K".toList)
      ("https://generativelanguage.googleapis.com/upload/v1beta/files?key=K&upload_id=u9".toList)
      ("u9".toList) (by decide) (by decide) rfl rfl (by decide)).1
    ("abc".toList) rfl (by decide)

theorem replaceAll_no_occurrence {pat : Str} (repl : Str) :
    ∀ (s : Str), ¬ pat <:+: s → replaceAll pat repl s = s := by
  intro s
  induction s with
  | nil => intro _; rfl
  | cons c rest ih =>
    intro h
    rw [replaceAll_cons_neg repl (fun hc => h (List.infix_cons_iff.mpr (Or.inl hc.2)))]
    rw [ih (fun hi => h (List.infix_cons hi))]

theorem replaceAll_append_left {pat : Str} (repl t : Str) (hp : pat ≠ []) :
    replaceAll pat repl (pat ++ t) = repl ++ replaceAll pat repl t := by
  match pat, hp with
  | p :: ps, hp =>
    rw [show (p :: ps) ++ t = p :: (ps ++ t) from rfl]
    rw [replaceAll_cons_pos repl ⟨hp, by exact List.prefix_append (p :: ps) t⟩]
    congr 1
    rw [show (p :: (ps ++ t)) = (p :: ps) ++ t from rfl, List.drop_left]

theorem replaceAll_middle {pat : Str} (repl : Str) :
    ∀ (x y : Str), pat ≠ [] →
      (∀ i, i < x.length → ¬ pat <+: (x.drop i ++ pat ++ y)) →
      ¬ pat <:+: y →
      replaceAll pat repl (x ++ pat ++ y) = x ++ repl ++ y := by
  intro x
  induction x with
  | nil =>
    intro y hp _ hy
    simp only [List.nil_append]
    rw [replaceAll_append_left repl y hp, replaceAll_no_occurrence repl y hy]
  | cons c xs ih =>
    intro y hp hx hy
    have h0 : ¬ pat <+: (c :: (xs ++ pat ++ y)) := by
      have := hx 0 (by simp)
      simpa using this
    rw [show (c :: xs) ++ pat ++ y = c :: (xs ++ pat ++ y) from by simp]
    rw [replaceAll_cons_neg repl (fun hc => h0 hc.2)]
    rw [ih y hp (fun i hi => by
      have := hx (i + 1) (by simp only [List.length_cons]; omega)
      simpa using this) hy]
    simp

theorem findKeyMatch_append :
    ∀ (x z : Str), (∀ i, i < x.length → keyMatchHead (x.drop i ++ z) = false) →
      findKeyMatch (x ++ z) = findKeyMatch z := by
  intro x
  induction x with
  | nil => intro z _; rfl
  | cons c xs ih =>
    intro z hx
    have h0 : keyMatchHead (c :: (xs ++ z)) = false := by
      have := hx 0 (by simp)
      simpa using this
    rw [show (c :: xs) ++ z = c :: (xs ++ z) from rfl]
    simp only [findKeyMatch]
    rw [if_neg (by simp [h0])]
    exact ih z (fun i hi => by
      have := hx (i + 1) (by simp only [List.length_cons]; omega)
      simpa using this)

theorem findKeyMatch_at (sep : Char) (cred b : Str)
    (hsep : sep = '?' ∨ sep = '&') (hc : cred ≠ []) (hamp : '&' ∉ cred)
    (hb : b = [] ∨ b.head? = some '&') :
    findKeyMatch (sep :: ("key=".toList ++ (cred ++ b))) = some (sep, cred) := by
  have hhead : keyMatchHead (sep :: ("key=".toList ++ (cred ++ b))) = true := by
    simp only [keyMatchHead, Bool.and_eq_true, Bool.or_eq_true, beq_iff_eq]
    refine ⟨⟨?_, ?_⟩, ?_⟩
    · rcases hsep with h | h
      · exact Or.inl h
      · exact Or.inr h
    · rw [ List.isPrefixOf_iff_prefix]
      exact List.prefix_append _ _
    · rw [show ("key=".toList ++ (cred ++ b)).drop 4 = cred ++ b from
        List.drop_left' (by rfl)]
      match cred, hc with
      | d :: cs, _ =>
        simp only [List.cons_append]
        have hd : d ≠ '&' := fun hde => hamp (hde ▸ List.mem_cons_self d cs)
        simpa using hd
  simp only [findKeyMatch, hhead, if_true]
  congr 1
  rw [show ("key=".toList ++ (cred ++ b)).drop 4 = cred ++ b from
    List.drop_left' (by rfl)]
  have hall : ∀ a ∈ cred, (a != '&') = true := by
    intro a ha
    have : a ≠ '&' := fun hae => hamp (hae ▸ ha)
    simpa using this
  rw [List.takeWhile_append_of_pos hall]
  rcases hb with hb | hb
  · subst hb
    simp
  · cases b with
    | nil => simp at hb
    | cons d bs =>
      have hd : d = '&' := by simpa using hb
      subst hd
      rw [List.takeWhile_cons_of_neg (by simp)]
      simp

/-- The scheme-stripped core of a request host, relative to the checks
`forceHttps` performs. -/
def hostCore (h : Str) : Str :=
  if "https://".toList <+: h then h.drop 8
  else if "http://".toList <+: h then h.drop 7
  else h

theorem replaceFirst_at_head {pat : Str} (repl t : Str) (hp : pat ≠ []) :
    replaceFirst pat repl (pat ++ t) = repl ++ t := by
  match pat, hp with
  | p :: ps, hp =>
    rw [show (p :: ps) ++ t = p :: (ps ++ t) from rfl]
    rw [show replaceFirst (p :: ps) repl (p :: (ps ++ t)) =
        if (p :: ps) ≠ [] ∧ (p :: ps) <+: (p :: (ps ++ t)) then
          repl ++ (p :: (ps ++ t)).drop (p :: ps).length
        else p :: replaceFirst (p :: ps) repl (ps ++ t) from rfl]
    rw [if_pos ⟨hp, by exact List.prefix_append (p :: ps) t⟩]
    rw [show (p :: (ps ++ t)) = (p :: ps) ++ t from rfl, List.drop_left]

theorem forceHttps_eq (h : Str) :
    forceHttps h = "https://".toList ++ hostCore h := by
  unfold forceHttps hostCore
  by_cases h1 : "https://".toList <+: h
  · rw [if_pos h1, if_pos h1]
    obtain ⟨t, rfl⟩ := h1
    rw [List.drop_left' (by rfl)]
  · rw [if_neg h1, if_neg h1]
    by_cases h2 : "http://".toList <+: h
    · rw [if_pos h2, if_pos h2]
      obtain ⟨t, rfl⟩ := h2
      rw [replaceFirst_at_head _ _ (by decide), List.drop_left' (by rfl)]
    · rw [if_neg h2, if_neg h2]

theorem rstripSlash_append (a b : Str) (hb : ∃ c ∈ b, c ≠ '/') :
    rstripSlash (a ++ b) = a ++ rstripSlash b := by
  unfold rstripSlash
  rw [List.reverse_append, List.dropWhile_append]
  have hne : ¬ (b.reverse.dropWhile (fun c => decide (c = '/'))).isEmpty = true := by
    rw [List.isEmpty_iff, List.dropWhile_eq_nil_iff]
    intro hall
    obtain ⟨c, hc, hcne⟩ := hb
    have := hall c (List.mem_reverse.mpr hc)
    simp at this
    exact hcne this
  rw [if_neg hne, List.reverse_append, List.reverse_reverse]

/-- The https-forced, slash-stripped origin actually substituted for the
upstream domain. -/
theorem host_origin_https (h : Str) (hcore : ∃ c ∈ hostCore h, c ≠ '/') :
    rstripSlash (forceHttps h) = "https://".toList ++ rstripSlash (hostCore h) ∧
    "https://".toList <+: rstripSlash (forceHttps h) := by
  have he : rstripSlash (forceHttps h) = "https://".toList ++ rstripSlash (hostCore h) := by
    rw [forceHttps_eq, rstripSlash_append _ _ hcore]
  exact ⟨he, he ▸ List.prefix_append _ _⟩

theorem replaceAllAux_self (pat : Str) :
    ∀ (f : Nat) (s : Str), s.length ≤ f → replaceAllAux pat pat f s = s := by
  intro f
  induction f with
  | zero =>
    intro s h
    have hs : s = [] := List.eq_nil_of_length_eq_zero (Nat.le_zero.mp h)
    subst hs
    rfl
  | succ f ih =>
    intro s h
    match s with
    | [] => rfl
    | c :: rest =>
      simp only [replaceAllAux]
      by_cases hc : pat ≠ [] ∧ pat <+: (c :: rest)
      · rw [if_pos hc]
        obtain ⟨t, ht⟩ := hc.2
        have hd : (c :: rest).drop pat.length = t := by
          rw [← ht, List.drop_left]
        rw [hd, ih t (by
          have h1 : 1 ≤ pat.length := List.length_pos.mpr hc.1
          have h2 : pat.length + t.length = rest.length + 1 := by
            have := congrArg List.length ht
            simpa using this
          simp only [List.length_cons] at h
          omega)]
        exact ht
      · rw [if_neg hc]
        rw [ih rest (by simp only [List.length_cons] at h; omega)]

theorem replaceAll_self (pat s : Str) : replaceAll pat pat s = s :=
  replaceAllAux_self pat s.length s (Nat.le_refl _)

/-- C3 (amended): exact characterization of the rewrite. For an upstream
URL `domain ++ p ++ sep·"key=" ++ cred ++ b` in which the upstream domain
does not reoccur, whose credential is non-empty, ampersand-free and
terminated by `b` (empty or starting with an ampersand), and in which the
`key=` pattern and the matched `sep·"key="·cred` substring occur nowhere
else, the rewritten URL is exactly the https-forced request host followed
by the original path and query with the value of the key parameter replaced by
the caller token — every other byte preserved — and its origin starts with
`https://`. -/
theorem rewriteUrl_rewrites_exactly (p b cred : Str) (sep : Char)
    (request_host token : Str)
    (hsep : sep = '?' ∨ sep = '&')
    (hcred : cred ≠ []) (hamp : '&' ∉ cred)
    (hb : b = [] ∨ b.head? = some '&')
    (hdom : ¬ upstreamDomain <:+: (p ++ sep :: ("key=".toList ++ (cred ++ b))))
    (hcore : ∃ c ∈ hostCore request_host, c ≠ '/')
    (hnokey : ∀ i, i < (rstripSlash (forceHttps request_host) ++ p).length →
      keyMatchHead ((rstripSlash (forceHttps request_host) ++ p).drop i ++
        sep :: ("key=".toList ++ (cred ++ b))) = false)
    (hnopat : ∀ i, i < (rstripSlash (forceHttps request_host) ++ p).length →
      ¬ (sep :: ("key=".toList ++ cred)) <+:
        ((rstripSlash (forceHttps request_host) ++ p).drop i ++
          (sep :: ("key=".toList ++ cred)) ++ b))
    (hnoy : ¬ (sep :: ("key=".toList ++ cred)) <:+: b) :
    rewriteUrl (upstreamDomain ++ (p ++ sep :: ("key=".toList ++ (cred ++ b))))
        request_host token =
      (rstripSlash (forceHttps request_host) ++ p) ++
        (sep :: ("key=".toList ++ (token ++ b))) ∧
    "https://".toList <+: rstripSlash (forceHttps request_host) := by
  set host := rstripSlash (forceHttps request_host) with hhost
  set tail := p ++ sep :: ("key=".toList ++ (cred ++ b)) with htail
  have hstep1 : replaceAll upstreamDomain host (upstreamDomain ++ tail) = host ++ tail := by
    rw [replaceAll_append_left host tail (by decide), replaceAll_no_occurrence host tail hdom]
  have hassoc : host ++ tail = (host ++ p) ++ (sep :: ("key=".toList ++ (cred ++ b))) := by
    rw [htail]
    simp [List.append_assoc]
  have hfind : findKeyMatch (host ++ tail) = some (sep, cred) := by
    rw [hassoc, findKeyMatch_append _ _ hnokey, findKeyMatch_at sep cred b hsep hcred hamp hb]
  have hassoc2 : host ++ tail = (host ++ p) ++ (sep :: ("key=".toList ++ cred)) ++ b := by
    rw [htail]
    simp [List.append_assoc]
  have hrepl : replaceAll (sep :: ("key=".toList ++ cred)) (sep :: ("key=".toList ++ token))
      (host ++ tail) = (host ++ p) ++ (sep :: ("key=".toList ++ token)) ++ b := by
    rw [hassoc2]
    exact replaceAll_middle _ (host ++ p) b (by simp) hnopat hnoy
  constructor
  · unfold rewriteUrl
    rw [hstep1]
    unfold replaceKeyParam
    rw [hfind]
    show replaceAll (sep :: ("key=".toList ++ cred)) (sep :: ("key=".toList ++ token))
        (host ++ tail) = (host ++ p) ++ (sep :: ("key=".toList ++ (token ++ b)))
    rw [hrepl]
    simp [List.append_assoc]
  · exact (host_origin_https request_host hcore).2

/-- The C3 counterexample URL: its `redirect` query parameter embeds the
upstream domain a second time. -/
def cexUrl : Str :=
  "https://generativelanguage.googleapis.com/upload/v1beta/files?key=SECRET&redirect=https://generativelanguage.googleapis.com/x".toList

/-- The output a byte-for-byte-preserving rewrite of `cexUrl` would have to
produce: origin replaced, key swapped, every other query parameter
untouched. -/
def cexPreserved : Str :=
  "https://example.com/upload/v1beta/files?key=tok&redirect=https://generativelanguage.googleapis.com/x".toList

/-- The output the rewriter actually produces on `cexUrl`: the upstream
domain inside the `redirect` parameter is substituted too, because the
domain substitution is a global string replace. -/
def cexActual : Str :=
  "https://example.com/upload/v1beta/files?key=tok&redirect=https://example.com/x".toList

set_option maxRecDepth 100000 in
/-- C3 counterexample: on a URL whose `redirect` parameter embeds the
upstream domain, the rewrite does not preserve the other query parameters
byte-for-byte — the claim as stated fails on this input. -/
theorem rewriteUrl_preservation_counterexample :
    rewriteUrl cexUrl ("example.com".toList) ("tok".toList) = cexActual ∧
    rewriteUrl cexUrl ("example.com".toList) ("tok".toList) ≠ cexPreserved := by
  exact ⟨by decide, by decide⟩

/-- C3 witness: a concrete benign upload URL is rewritten to the https
request-host origin with path and trailing parameter preserved and the
credential replaced by the caller token. -/
theorem rewriteUrl_rewrites_exactly_witness :
    rewriteUrl
        (upstreamDomain ++ ("/upload/v1beta/files".toList ++ '?' ::
          ("key=".toList ++ ("SECRET".toList ++ "&upload_id=u1".toList))))
        ("proxy.example.com".toList) ("tok".toList) =
      (rstripSlash (forceHttps ("proxy.example.com".toList)) ++ "/upload/v1beta/files".toList) ++
        ('?' :: ("key=".toList ++ ("tok".toList ++ "&upload_id=u1".toList))) ∧
    "https://".toList <+: rstripSlash (forceHttps ("proxy.example.com".toList)) :=
  rewriteUrl_rewrites_exactly ("/upload/v1beta/files".toList) ("&upload_id=u1".toList)
    ("SECRET".toList) '?' ("proxy.example.com".toList) ("tok".toList)
    (Or.inl rfl) (by decide) (by decide) (Or.inr (by decide)) (by decide) (by decide)
    (by decide) (by decide) (by decide)

/-- C4: the URL Rewriter is a deterministic pure function of
`(upstreamUrl, requestHost, callerToken)`; re-applying it to a URL in which
the upstream domain no longer occurs and whose matched `key` value (if a
`key=` parameter is present at all) is already the caller token returns the
URL unchanged; and an input without any `key=` parameter still receives the
domain substitution and is otherwise returned unchanged, with no failure. -/
theorem rewriteUrl_deterministic_idempotent :
    (∀ u₁ u₂ h₁ h₂ t₁ t₂, u₁ = u₂ → h₁ = h₂ → t₁ = t₂ →
      rewriteUrl u₁ h₁ t₁ = rewriteUrl u₂ h₂ t₂) ∧
    (∀ url host token, ¬ upstreamDomain <:+: url →
      (findKeyMatch url = none ∨ ∃ sep, findKeyMatch url = some (sep, token)) →
      rewriteUrl url host token = url) ∧
    (∀ url host token,
      findKeyMatch (replaceAll upstreamDomain (rstripSlash (forceHttps host)) url) = none →
      rewriteUrl url host token =
        replaceAll upstreamDomain (rstripSlash (forceHttps host)) url) := by
  refine ⟨?_, ?_, ?_⟩
  · intro u₁ u₂ h₁ h₂ t₁ t₂ hu hh ht
    rw [hu, hh, ht]
  · intro url host token hdom hk
    unfold rewriteUrl
    rw [replaceAll_no_occurrence _ url hdom]
    rcases hk with hk | ⟨sep, hk⟩
    · unfold replaceKeyParam
      rw [hk]
    · unfold replaceKeyParam
      rw [hk]
      exact replaceAll_self _ url
  · intro url host token hnone
    unfold rewriteUrl replaceKeyParam
    rw [hnone]

/-- The already-rewritten URL used by the C4 witness. -/
def idemUrl : Str :=
  "https://example.com/upload/v1beta/files?key=tok&upload_id=u1".toList

/-- C4 witness: re-applying the rewrite to a URL already on the request
host and already carrying the caller token leaves it unchanged. -/
theorem rewriteUrl_deterministic_idempotent_witness :
    rewriteUrl idemUrl ("example.com".toList) ("tok".toList) = idemUrl :=
  rewriteUrl_deterministic_idempotent.2.1 idemUrl ("example.com".toList) ("tok".toList)
    (by decide) (Or.inr ⟨'?', by decide⟩)
